import Mathlib

/-!
Verification development for src/main.c: an AVR FreeRTOS program that reads one
byte at a time from USART0, shows digits on a seven-segment display via PORTC,
and reports validity of each keystroke over the serial link.

Machine model used throughout:
* a received byte is a `Nat` below 256 (`uint8_t` from `USART0_readChar`);
* the C type `int` on AVR is 16 bits, two's complement; its object
  representation is a `Nat` below 65536 and its value is read by `toSigned16`;
* the C type `char` on avr-gcc is 8 bits, signed; its value is `toSigned8`;
* the 8-bit output register PORTC.OUT is a `Nat` below 256, with OUTCLR and
  OUTSET modelled as the bitwise register operations they perform.
-/

/-- Line main.c:88, `int userInputToInt = userInput - '0'`: C integer
arithmetic on the received byte; the ASCII code of the zero character is 48. -/
def userInputToInt (userInput : Nat) : Int := (userInput : Int) - 48

/-- Value of a 16-bit two's-complement `int` whose object representation is the
bit pattern `x` (with `x < 65536`). -/
def toSigned16 (x : Nat) : Int := if x < 32768 then (x : Int) else (x : Int) - 65536

/-- Value of an 8-bit signed `char` holding the byte `c` (with `c < 256`). -/
def toSigned8 (c : Nat) : Int := if c < 128 then (c : Int) else (c : Int) - 256

/-- Line main.c:89, `xQueueSend(intQueueForDriver, (void *)&userInputToInt, 0)`
with the queue created as `xQueueCreate(5,1)`: the element size is one byte, so
the enqueue copies exactly the least significant byte of the two's-complement
representation of the int (AVR is little endian). -/
def sendTruncate (v : Int) : Nat := (v % 256).toNat

/-- Byte that actually travels through intQueueForDriver for received byte c. -/
def transferredByte (c : Nat) : Nat := sendTruncate (userInputToInt c)

/-- Line main.c:117, `xQueueReceive(intQueueForDriver, (void *)&recInt, 0)`:
the one-byte element copy writes only the low byte of the 16-bit `recInt`; the
upper byte keeps whatever content `old / 256` it had before (the variable is
declared uninitialized at main.c:113). -/
def recvWriteLow (old b : Nat) : Nat := (old / 256) * 256 + b

/-- Lines main.c:106-111, `uint8_t number[]`: the 11-entry seven-segment
encoding table; indices 0-9 are the digits and index 10 is the error glyph. -/
def number : List Nat :=
  [0b00111111, 0b00000110, 0b01011011, 0b01001111, 0b01100110, 0b01101101,
   0b01111101, 0b00000111, 0b01111111, 0b01101111, 0b01111001]

/-- Entry of the encoding table at index i. -/
def numberAt (i : Nat) : Nat := number.getD i 0

/-- Lines main.c:120-122: the digit test of driverTask, a chain of equality
comparisons of the int value of recInt against 0 .. 9. -/
def isDigitValue (v : Int) : Bool :=
  (v == 0) || (v == 1) || (v == 2) || (v == 3) || (v == 4) ||
  (v == 5) || (v == 6) || (v == 7) || (v == 8) || (v == 9)

/-- Index at which driverTask accesses the encoding table for the int value v
of recInt: `number[recInt]` in the then branch (main.c:125), `number[10]` in
the else branch (main.c:131). -/
def driverIndex (v : Int) : Nat := if isDigitValue v then v.toNat else 10

/-- Virtual-port write `PORTC.OUTCLR = mask`: clears the masked bits of OUT. -/
def outclr (out mask : Nat) : Nat := out &&& (255 ^^^ mask)

/-- Virtual-port write `PORTC.OUTSET = mask`: sets the masked bits of OUT. -/
def outset (out mask : Nat) : Nat := out ||| mask

/-- One display update of driverTask (main.c:124-125 and main.c:130-131):
`PORTC.OUTCLR = 0xFF; PORTC.OUTSET = number[idx]` applied to the previous
register content `out`. -/
def displayUpdate (idx out : Nat) : Nat := outset (outclr out 255) (numberAt idx)

/-- One successful loop iteration of driverTask (main.c:117-133): the dequeued
byte b lands in the low byte of recInt, the digit test chain picks the table
index, and the display is updated clear-then-set. Returns the new bit pattern
of recInt and the new PORTC.OUT. -/
def driverStep (oldRec b portc : Nat) : Nat × Nat :=
  (recvWriteLow oldRec b,
   displayUpdate (driverIndex (toSigned16 (recvWriteLow oldRec b))) portc)

/-- Lines main.c:150-152: the digit test of senderTask, a chain of equality
comparisons of the char value of recChar against the ASCII digit codes 48 .. 57. -/
def isDigitChar (v : Int) : Bool :=
  (v == 48) || (v == 49) || (v == 50) || (v == 51) || (v == 52) ||
  (v == 53) || (v == 54) || (v == 55) || (v == 56) || (v == 57)

/-- String literal at main.c:154. -/
def validMsg : String := "Valid digit was entered."

/-- String literal at main.c:159. -/
def errorMsg : String := "Error! Not a valid digit."

/-- One successful loop iteration of senderTask (main.c:147-161) on the
received byte c: the string handed to `USART0_sendString`. -/
def senderStep (c : Nat) : String :=
  if isDigitChar (toSigned8 c) then validMsg else errorMsg

/-- Modelled from the spec: the FreeRTOS queue primitives are external library
code not present under src/. Per the spec each queue is a bounded FIFO of
capacity 5, and `xQueueSend` with zero ticks to wait appends at the back when
there is room and otherwise returns failure, silently dropping the new item
without blocking the caller. Returns the pdTRUE/pdFALSE status and the new
queue contents. -/
def xQueueSend (q : List Nat) (x : Nat) : Bool × List Nat :=
  if q.length < 5 then (true, q ++ [x]) else (false, q)

/-- Modelled from the spec: `xQueueReceive` with zero ticks to wait takes the
oldest element from the front, or returns none when the queue is empty. -/
def xQueueReceive (q : List Nat) : Option (Nat × List Nat) :=
  match q with
  | [] => none
  | y :: ys => some (y, ys)

/-- Enqueue a whole list of values in order, dropping on overflow, as a burst
of readerTask iterations with both consumers paused would. -/
def sendAll (q : List Nat) (xs : List Nat) : List Nat :=
  xs.foldl (fun acc x => (xQueueSend acc x).2) q

/-- Dequeue repeatedly until `xQueueReceive` reports an empty queue, collecting
the values in the order they come out. -/
def drainAll (q : List Nat) : List Nat :=
  match hq : xQueueReceive q with
  | none => []
  | some p => p.1 :: drainAll p.2
termination_by q.length
decreasing_by
  cases q with
  | nil => simp [xQueueReceive] at hq
  | cons y ys =>
    simp only [xQueueReceive, Option.some.injEq] at hq
    subst hq
    simp

/-- One loop iteration of readerTask (main.c:87-90) on received byte c: derive
the int, then attempt the two zero-wait enqueues; the one-byte element size
truncates the int to `transferredByte c` on the numeric queue, while the raw
byte goes to the char queue. -/
def readerStep (c : Nat) (intQ charQ : List Nat) : List Nat × List Nat :=
  ((xQueueSend intQ (transferredByte c)).2, (xQueueSend charQ c).2)

/-- Bootstrap-level actions performed by the program before steady state. -/
inductive BootStep where
  | initTransport : BootStep
  | createQueue : String → Nat → Nat → BootStep
  | createTask : String → Nat → BootStep
  | startScheduler : BootStep
deriving DecidableEq

/-- FreeRTOS constant: the priority all three tasks are created at. -/
def tskIDLE_PRIORITY : Nat := 0

/-- Sequence of actions `main` performs, in order (main.c:165-196): USART
initialization, creation of the three tasks (each at tskIDLE_PRIORITY), then
the scheduler start. No queue is created here. -/
def mainBoot : List BootStep :=
  [BootStep.initTransport,
   BootStep.createTask "reader" tskIDLE_PRIORITY,
   BootStep.createTask "driver" tskIDLE_PRIORITY,
   BootStep.createTask "sender" tskIDLE_PRIORITY,
   BootStep.startScheduler]

/-- Actions readerTask performs when it first runs, before its loop
(main.c:82-83): it is readerTask, not main, that creates the two queues, each
with capacity 5 and element size 1. -/
def readerPrelude : List BootStep :=
  [BootStep.createQueue "intQueueForDriver" 5 1,
   BootStep.createQueue "charQueueForError" 5 1]

/-- Recognizer for queue-creation bootstrap actions. -/
def isCreateQueueStep : BootStep → Bool
  | BootStep.createQueue _ _ _ => true
  | _ => false

/-- Recognizer for task-creation bootstrap actions. -/
def isCreateTaskStep : BootStep → Bool
  | BootStep.createTask _ _ => true
  | _ => false

/-- Priority of a task-creation action, none for other actions. -/
def taskPriority : BootStep → Option Nat
  | BootStep.createTask _ p => some p
  | _ => none

/-! Helper lemmas shared by several claims. -/

/-- The clear-then-set update wipes all eight bits first, so the resulting
pattern is exactly the selected table entry, whatever was lit before. -/
theorem displayUpdate_eq (idx out : Nat) : displayUpdate idx out = numberAt idx := by
  simp [displayUpdate, outclr, outset, Nat.xor_self, Nat.and_zero, Nat.zero_or]

/-- The digit test chain of driverTask accepts exactly the int values 0 .. 9. -/
theorem isDigitValue_iff (v : Int) : isDigitValue v = true ↔ 0 ≤ v ∧ v ≤ 9 := by
  simp only [isDigitValue, Bool.or_eq_true, beq_iff_eq]
  omega

/-- The digit test chain of senderTask accepts exactly the char values 48 .. 57. -/
theorem isDigitChar_iff (v : Int) : isDigitChar v = true ↔ 48 ≤ v ∧ v ≤ 57 := by
  simp only [isDigitChar, Bool.or_eq_true, beq_iff_eq]
  omega

/-- Driver table index for an in-range value. -/
theorem driverIndex_digit (v : Int) (h0 : 0 ≤ v) (h9 : v ≤ 9) :
    driverIndex v = v.toNat := by
  unfold driverIndex
  rw [if_pos ((isDigitValue_iff v).mpr ⟨h0, h9⟩)]

/-- Driver table index for an out-of-range value is the fallback index 10. -/
theorem driverIndex_nondigit (v : Int) (h : v < 0 ∨ 9 < v) :
    driverIndex v = 10 := by
  unfold driverIndex
  have hfalse : ¬ isDigitValue v = true := by
    intro hx
    rcases (isDigitValue_iff v).mp hx with ⟨h0, h9⟩
    omega
  rw [if_neg hfalse]

/-- Byte through the numeric queue for a received byte at or above the ASCII
code of zero. -/
theorem transferredByte_of_ge (c : Nat) (h48 : 48 ≤ c) (hc : c < 256) :
    transferredByte c = c - 48 := by
  unfold transferredByte sendTruncate userInputToInt
  omega

/-- Byte through the numeric queue for a received byte below the ASCII code of
zero: the negative int wraps modulo 256. -/
theorem transferredByte_of_lt (c : Nat) (h48 : c < 48) :
    transferredByte c = c + 208 := by
  unfold transferredByte sendTruncate userInputToInt
  omega

/-- The transferred byte always fits in one byte. -/
theorem transferredByte_lt (c : Nat) : transferredByte c < 256 := by
  unfold transferredByte sendTruncate userInputToInt
  omega

/-- When the residual upper byte of recInt is zero, the one-byte receive leaves
exactly the transferred byte in recInt. -/
theorem recvWriteLow_of_small (old b : Nat) (h : old < 256) :
    recvWriteLow old b = b := by
  unfold recvWriteLow
  omega

/-- A small nonnegative bit pattern reads back as itself. -/
theorem toSigned16_small (x : Nat) (h : x < 32768) : toSigned16 x = (x : Int) := by
  unfold toSigned16
  rw [if_pos h]

/-- When the byte going through the numeric queue is not in 0 .. 9, the int
value of recInt is outside 0 .. 9 whatever its residual upper byte holds. -/
theorem toSigned16_nondigit (oldRec b : Nat) (hold : oldRec < 65536)
    (hb1 : 10 ≤ b) (hb2 : b < 256) :
    toSigned16 (recvWriteLow oldRec b) < 0 ∨ 9 < toSigned16 (recvWriteLow oldRec b) := by
  unfold toSigned16 recvWriteLow
  split <;> omega

/-! Claim theorems. -/

/-- C1 counterexample: the unconditional claim fails. With the digit byte 51
(the three character) but a residual bit pattern 256 in the uninitialized
recInt — a nonzero never-written upper byte — the one-byte receive leaves
recInt at 259, the comparison chain matches nothing, and the driver selects
the fallback index 10 instead of entry 3. -/
theorem c1_counterexample :
    driverIndex (toSigned16 (recvWriteLow 256 (transferredByte 51))) = 10 ∧
    ¬ driverIndex (toSigned16 (recvWriteLow 256 (transferredByte 51))) = 51 - 48 := by
  decide

/-- C1 as amended: for every received byte c that is an ASCII digit, provided
the residual, never-written upper byte of the uninitialized recInt holds zero
(compare the one-byte transfer described in C7), the driver selects entry
(c - 48) of the encoding table and the display ends up lit with exactly that
entry; the sender transmits exactly the valid-digit message unconditionally. -/
theorem c1_digit_display_and_message (c oldRec portc : Nat)
    (hc1 : 48 ≤ c) (hc2 : c ≤ 57) (hres : oldRec < 256) :
    driverIndex (toSigned16 (recvWriteLow oldRec (transferredByte c))) = c - 48 ∧
    (driverStep oldRec (transferredByte c) portc).2 = numberAt (c - 48) ∧
    senderStep c = validMsg := by
  have hb : transferredByte c = c - 48 := transferredByte_of_ge c hc1 (by omega)
  have hlow : recvWriteLow oldRec (transferredByte c) = c - 48 := by
    rw [hb]; exact recvWriteLow_of_small _ _ hres
  have hidx : driverIndex (toSigned16 (recvWriteLow oldRec (transferredByte c))) = c - 48 := by
    rw [hlow, toSigned16_small _ (by omega), driverIndex_digit _ (by omega) (by omega)]
    omega
  refine ⟨hidx, ?_, ?_⟩
  · simp only [driverStep]
    rw [displayUpdate_eq, hidx]
  · have h8 : toSigned8 c = (c : Int) := by
      unfold toSigned8; rw [if_pos (by omega)]
    unfold senderStep
    rw [h8, if_pos ((isDigitChar_iff _).mpr ⟨by omega, by omega⟩)]

/-- Witness for C1 at the received byte 51, the ASCII code of the three
character, with a zeroed recInt and a dark display. -/
theorem c1_witness :
    driverIndex (toSigned16 (recvWriteLow 0 (transferredByte 51))) = 51 - 48 ∧
    (driverStep 0 (transferredByte 51) 0).2 = numberAt (51 - 48) ∧
    senderStep 51 = validMsg :=
  c1_digit_display_and_message 51 0 0 (by decide) (by decide) (by decide)

/-- C2: for every received byte c that is not an ASCII digit, the driver
selects the fallback entry at index 10, the display ends up lit with that
entry, and the sender transmits exactly the error message. This holds whatever
the residual upper byte of recInt contains. -/
theorem c2_nondigit_fallback_and_error (c oldRec portc : Nat)
    (hc : c < 256) (hnd : c < 48 ∨ 57 < c) (hold : oldRec < 65536) :
    driverIndex (toSigned16 (recvWriteLow oldRec (transferredByte c))) = 10 ∧
    (driverStep oldRec (transferredByte c) portc).2 = numberAt 10 ∧
    senderStep c = errorMsg := by
  have hb10 : 10 ≤ transferredByte c := by
    rcases hnd with h | h
    · rw [transferredByte_of_lt c h]; omega
    · rw [transferredByte_of_ge c (by omega) hc]; omega
  have hidx := driverIndex_nondigit _
    (toSigned16_nondigit oldRec (transferredByte c) hold hb10 (transferredByte_lt c))
  refine ⟨hidx, ?_, ?_⟩
  · simp only [driverStep]
    rw [displayUpdate_eq, hidx]
  · have h8 : toSigned8 c < 48 ∨ 57 < toSigned8 c := by
      unfold toSigned8; split <;> omega
    have hn : ¬ isDigitChar (toSigned8 c) = true := by
      intro hx
      rcases (isDigitChar_iff _).mp hx with ⟨h1, h2⟩
      omega
    unfold senderStep
    rw [if_neg hn]

/-- Witness for C2 at the received byte 65, the ASCII code of the letter A,
with a nonzero residual upper byte in recInt. -/
theorem c2_witness :
    driverIndex (toSigned16 (recvWriteLow 300 (transferredByte 65))) = 10 ∧
    (driverStep 300 (transferredByte 65) 0).2 = numberAt 10 ∧
    senderStep 65 = errorMsg :=
  c2_nondigit_fallback_and_error 65 300 0 (by decide) (Or.inr (by decide)) (by decide)

/-- C3: every access driverTask makes to the encoding table is in bounds: the
index is at most 10, a value outside 0 .. 9 is redirected to the fallback index
10 and never used as an index itself, and a value inside 0 .. 9 indexes the
table at itself, within 0 .. 9. -/
theorem c3_table_access_bounded (v : Int) :
    driverIndex v ≤ 10 ∧
    (v < 0 ∨ 9 < v → driverIndex v = 10) ∧
    (0 ≤ v ∧ v ≤ 9 → driverIndex v = v.toNat ∧ driverIndex v ≤ 9) := by
  refine ⟨?_, fun h => driverIndex_nondigit v h, fun h => ?_⟩
  · unfold driverIndex
    split
    · rename_i hx
      rcases (isDigitValue_iff v).mp hx with ⟨h0, h9⟩
      omega
    · omega
  · rw [driverIndex_digit v h.1 h.2]
    constructor
    · rfl
    · omega

/-- Witness for C3: at the int value -48 (a received NUL byte after conversion)
only the fallback index is accessed, and at the int value 3 the table is
indexed at 3. -/
theorem c3_witness : driverIndex (-48) = 10 ∧ driverIndex 3 = 3 :=
  ⟨(c3_table_access_bounded (-48)).2.1 (Or.inl (by decide)),
   ((c3_table_access_bounded 3).2.2 ⟨by decide, by decide⟩).1⟩

/-- C4: an enqueue with zero ticks to wait on a queue already holding 5
elements returns the failure status to the producer and leaves the queue
contents unchanged: the new item is dropped. -/
theorem c4_full_queue_drop (q : List Nat) (x : Nat) (h : q.length = 5) :
    xQueueSend q x = (false, q) := by
  unfold xQueueSend
  rw [if_neg (by omega)]

/-- Witness for C4: a sixth item offered to a full queue is dropped. -/
theorem c4_witness : xQueueSend [1, 2, 3, 4, 5] 6 = (false, [1, 2, 3, 4, 5]) :=
  c4_full_queue_drop [1, 2, 3, 4, 5] 6 (by decide)

/-- Repeatedly dequeuing with xQueueReceive until empty returns the queue
contents front to back. -/
theorem drainAll_eq (q : List Nat) : drainAll q = q := by
  induction q with
  | nil => unfold drainAll; rfl
  | cons y ys ih =>
    unfold drainAll
    simp [xQueueReceive, ih]

/-- A burst of enqueues that fits under the capacity appends in order, with no
drop. -/
theorem sendAll_of_room (xs : List Nat) :
    ∀ q : List Nat, q.length + xs.length ≤ 5 → sendAll q xs = q ++ xs := by
  induction xs with
  | nil =>
    intro q h
    simp [sendAll]
  | cons x xs ih =>
    intro q h
    simp only [List.length_cons] at h
    have hq : q.length < 5 := by omega
    have hstep : sendAll q (x :: xs) = sendAll (q ++ [x]) xs := by
      simp [sendAll, xQueueSend, hq]
    rw [hstep, ih (q ++ [x]) (by simp; omega)]
    simp

/-- C5: for every sequence of at most 5 values enqueued into an empty queue
with no interleaved dequeue, draining the queue returns exactly that sequence,
in enqueue order. -/
theorem c5_fifo_order (xs : List Nat) (h : xs.length ≤ 5) :
    drainAll (sendAll [] xs) = xs := by
  rw [sendAll_of_room xs [] (by simpa using h), drainAll_eq]
  simp

/-- Witness for C5 on a five-element burst. -/
theorem c5_witness : drainAll (sendAll [] [9, 8, 7, 6, 5]) = [9, 8, 7, 6, 5] :=
  c5_fifo_order [9, 8, 7, 6, 5] (by decide)

/-- C6 counterexample: main performs no queue creation at all; both
xQueueCreate calls sit at the start of readerTask (main.c:82-83), so the claim
that main creates the two queues before creating the tasks is false of the
code. -/
theorem c6_counterexample :
    mainBoot.any isCreateQueueStep = false ∧
    readerPrelude.all isCreateQueueStep = true := by
  decide

/-- C6 amended: main initializes the transport first, creates exactly three
tasks and no queue, every created task has priority tskIDLE_PRIORITY, and the
last action hands control to the scheduler; the two queues are instead created
by readerTask when it first runs, so they need not exist before the three
tasks start. -/
theorem c6_amended_bootstrap :
    mainBoot.head? = some BootStep.initTransport ∧
    (mainBoot.filter isCreateTaskStep).length = 3 ∧
    (mainBoot.filter isCreateQueueStep).length = 0 ∧
    mainBoot.all
      (fun s => (taskPriority s == some tskIDLE_PRIORITY) || (taskPriority s == none)) = true ∧
    mainBoot.getLast? = some BootStep.startScheduler ∧
    (readerPrelude.filter isCreateQueueStep).length = 2 := by
  decide

/-- C7: the value crossing the numeric queue is exactly the least significant
byte of the two's-complement int (c - 48): one byte, congruent to (c - 48)
modulo 256; on dequeue only the low byte of recInt is written and the upper
byte of its previous content survives untouched. -/
theorem c7_one_byte_truncation (c oldRec : Nat) (hc : c < 256) (hold : oldRec < 65536) :
    transferredByte c < 256 ∧
    ((transferredByte c : Nat) : Int) % 256 = ((c : Int) - 48) % 256 ∧
    recvWriteLow oldRec (transferredByte c) % 256 = transferredByte c ∧
    recvWriteLow oldRec (transferredByte c) / 256 = oldRec / 256 := by
  have hb := transferredByte_lt c
  refine ⟨hb, ?_, ?_, ?_⟩
  · unfold transferredByte sendTruncate userInputToInt
    omega
  · unfold recvWriteLow
    omega
  · unfold recvWriteLow
    omega

/-- Witness for C7 at the received byte 65 and a recInt previously holding the
bit pattern 43981. -/
theorem c7_witness :
    transferredByte 65 < 256 ∧
    ((transferredByte 65 : Nat) : Int) % 256 = ((65 : Int) - 48) % 256 ∧
    recvWriteLow 43981 (transferredByte 65) % 256 = transferredByte 65 ∧
    recvWriteLow 43981 (transferredByte 65) / 256 = 43981 / 256 :=
  c7_one_byte_truncation 65 43981 (by decide) (by decide)

/-- C8 counterexample: the unconditional claim fails. With the byte 51 but a
residual bit pattern 256 in the uninitialized recInt, the display ends up
showing the fallback glyph 0b01111001, not the claimed 0b01001111. -/
theorem c8_counterexample :
    (driverStep 256 (transferredByte 51) 0).2 = 0b01111001 ∧
    ¬ (driverStep 256 (transferredByte 51) 0).2 = 0b01001111 := by
  decide

/-- C8 as amended: end-to-end scenario for the received byte 51, the ASCII
code of the three character: provided the never-written upper byte of recInt
holds zero (as in C1), the display ends up showing exactly the pattern
0b01001111; the sender transmits exactly the valid-digit message
unconditionally. -/
theorem c8_three_scenario (oldRec portc : Nat) (hres : oldRec < 256) :
    (driverStep oldRec (transferredByte 51) portc).2 = 0b01001111 ∧
    senderStep 51 = validMsg := by
  have hb : transferredByte 51 = 3 := by decide
  constructor
  · simp only [driverStep]
    rw [displayUpdate_eq, hb, recvWriteLow_of_small _ _ hres]
    decide
  · decide

/-- Witness for C8 with a stale nonzero low byte in recInt and a fully lit
display. -/
theorem c8_witness :
    (driverStep 7 (transferredByte 51) 255).2 = 0b01001111 ∧
    senderStep 51 = validMsg :=
  c8_three_scenario 7 255 (by decide)

/-- C9: end-to-end scenario for the received byte 65, the ASCII code of the
letter A: the display ends up showing exactly the fallback pattern 0b01111001,
entry 10 of the table, and the sender transmits exactly the error message —
whatever the residual upper byte of recInt contains. -/
theorem c9_A_scenario (oldRec portc : Nat) (hold : oldRec < 65536) :
    (driverStep oldRec (transferredByte 65) portc).2 = 0b01111001 ∧
    senderStep 65 = errorMsg := by
  have hb : transferredByte 65 = 17 := by decide
  constructor
  · simp only [driverStep]
    rw [displayUpdate_eq, hb,
      driverIndex_nondigit _ (toSigned16_nondigit oldRec 17 hold (by decide) (by decide))]
    decide
  · decide

/-- Witness for C9 with a nonzero residual upper byte in recInt. -/
theorem c9_witness :
    (driverStep 300 (transferredByte 65) 0).2 = 0b01111001 ∧
    senderStep 65 = errorMsg :=
  c9_A_scenario 300 0 (by decide)

/-- C10: for every digit d, the clear-then-set display update for d is
idempotent on the display state: doing it twice in a row leaves the same final
pattern as doing it once. -/
theorem c10_update_idempotent (d out : Nat) (hd : d ≤ 9) :
    displayUpdate d (displayUpdate d out) = displayUpdate d out := by
  rw [displayUpdate_eq, displayUpdate_eq]

/-- Witness for C10 at the digit 5 on a half-lit display. -/
theorem c10_witness : displayUpdate 5 (displayUpdate 5 170) = displayUpdate 5 170 :=
  c10_update_idempotent 5 170 (by decide)
